import Mathlib

/-!
  # Verification of the sacas-daemon game-state core

  Shallow embedding of the daemon's state store (`src/state.rs`,
  `src/types.rs`), the signed-sync request builder (`src/sync/signed_sync.rs`,
  `src/sync/mod.rs`), the WebSocket authentication signer
  (`src/websocket/client.rs`) and the network-quality step function
  (`src/network/probe.rs`), together with theorems settling the frozen
  claims about them.

  Modelling conventions, stated once:

  * Rust `u64` values are `ℕ`; every arithmetic step the source performs on
    a `u64` that can exceed the machine width is wrapped explicitly with
    `% 2 ^ 64` (Rust release-mode wrapping; debug mode panics at the same
    inputs, so a claim predicting a numeric result is false there either
    way). Rust `Nat` subtraction is already the source's `saturating_sub`.
  * Rust `i64` values are `ℤ`, with explicit wrapping helpers at the casts
    the source performs.
  * Rust `f64` is modelled by `F64`: NaN, the two infinities, and an exact
    rational payload for finite values. The special values follow IEEE-754
    rules (NaN propagation and unordered comparisons, signed infinities,
    `0.0 / 0.0 = NaN`). The one computation whose claim depends on the
    rounding of finite binary64 intermediates — the entropy-decay cast
    `(excess as f64 * 0.02) as u64` — is modelled exactly, by a
    round-to-nearest-even rounding `rnd64` over the rationals and the true
    binary64 value of the `0.02` literal; the remaining finite-payload
    arithmetic (sums, means, comparisons against the band thresholds) is
    exact, which the claims that touch it are insensitive to.
  * `chrono::DateTime<Utc>` instants are `ℤ` seconds. Call sites that read
    `Utc::now()` more than once inside one locked operation are modelled
    with a single `now` parameter (second-resolution tolerance, which the
    spec itself grants).
  * Ambient nondeterminism (the clock, UUID nonces) enters as explicit
    parameters; Ed25519 signing (`DeviceIdentity::sign_base64`) is an
    abstract deterministic map `String → String` carried in the identity.
-/

namespace Sacas

/-- Width modulus of a Rust `u64`. -/
def U64MOD : ℕ := 2 ^ 64

/-- Model of an IEEE-754 binary64 value: NaN, the two infinities, or a
finite value with an exact rational payload. -/
inductive F64 where
  | nan : F64
  | inf : F64
  | ninf : F64
  | val : ℚ → F64
deriving DecidableEq, Repr

namespace F64

/-- IEEE addition on the model: NaN propagates, opposite infinities give
NaN, an infinity absorbs any finite value, finite payloads add exactly. -/
def add : F64 → F64 → F64
  | nan, _ => nan
  | _, nan => nan
  | inf, ninf => nan
  | ninf, inf => nan
  | inf, _ => inf
  | _, inf => inf
  | ninf, _ => ninf
  | _, ninf => ninf
  | val a, val b => val (a + b)

/-- IEEE multiplication on the model: NaN propagates, infinity times zero
is NaN, signs multiply, finite payloads multiply exactly. -/
def mul : F64 → F64 → F64
  | nan, _ => nan
  | _, nan => nan
  | inf, inf => inf
  | inf, ninf => ninf
  | ninf, inf => ninf
  | ninf, ninf => inf
  | inf, val b => if 0 < b then inf else if b < 0 then ninf else nan
  | val a, inf => if 0 < a then inf else if a < 0 then ninf else nan
  | ninf, val b => if 0 < b then ninf else if b < 0 then inf else nan
  | val a, ninf => if 0 < a then ninf else if a < 0 then inf else nan
  | val a, val b => val (a * b)

/-- IEEE division on the model: NaN propagates, `∞ / ∞` is NaN, a finite
value over an infinity is zero, `0 / 0` is NaN, a nonzero finite value over
zero is a signed infinity, finite payloads divide exactly. The model has a
single zero, so the sign of a zero divisor is taken as positive. -/
def div : F64 → F64 → F64
  | nan, _ => nan
  | _, nan => nan
  | inf, inf => nan
  | inf, ninf => nan
  | ninf, inf => nan
  | ninf, ninf => nan
  | inf, val b => if b < 0 then ninf else inf
  | ninf, val b => if b < 0 then inf else ninf
  | val _, inf => val 0
  | val _, ninf => val 0
  | val a, val b =>
      if b = 0 then (if a = 0 then nan else if 0 < a then inf else ninf)
      else val (a / b)

/-- IEEE strict less-than on the model: any comparison with NaN is false,
nothing is below `-∞` and nothing is above `+∞`. -/
def lt : F64 → F64 → Bool
  | nan, _ => false
  | _, nan => false
  | inf, _ => false
  | ninf, ninf => false
  | ninf, _ => true
  | val _, inf => true
  | val _, ninf => false
  | val a, val b => decide (a < b)

/-- Whether `x.fract() == 0.0` holds in Rust: true exactly for finite
integer-valued payloads (the `fract` of NaN or of an infinity is NaN, and
`NaN == 0.0` is false). -/
def fractIsZero : F64 → Bool
  | val q => decide (q.den = 1)
  | _ => false

/-- Rust's saturating `as u64` cast: NaN and negative values go to `0`,
values at or above `2 ^ 64` go to `2 ^ 64 - 1`, and a finite positive
payload truncates toward zero. -/
def toU64 : F64 → ℕ
  | nan => 0
  | ninf => 0
  | inf => U64MOD - 1
  | val q => if q ≤ 0 then 0 else min (U64MOD - 1) ⌊q⌋₊

/-- Rust's `f64::clamp(lo, hi)`: below `lo` gives `lo`, above `hi` gives
`hi`, otherwise (NaN included, since NaN compares false) the value itself. -/
def clamp (x lo hi : F64) : F64 :=
  if lt x lo then lo else if lt hi x then hi else x

/-- Rational stand-in for the natural logarithm on positive payloads: the
degree-7 atanh series `2 (z + z³/3 + z⁵/5 + z⁷/7)` at `z = (q-1)/(q+1)`.
Rust documents the precision of `f64::ln` as non-deterministic (platform
libm), so the source pins the logarithm exactly only at the IEEE-exact
points `ln 1 = 0` (and `ln 0 = -∞`, handled before this function is
reached); this stand-in is exact at `q = 1` and no theorem below depends
on its value at any other point. -/
def lnApprox (q : ℚ) : ℚ :=
  let z := (q - 1) / (q + 1)
  2 * (z + z ^ 3 / 3 + z ^ 5 / 5 + z ^ 7 / 7)

/-- Model of Rust `f64::ln`: NaN for NaN and for negative arguments
(including `-∞`), `-∞` at zero, `+∞` at `+∞`, and the rational stand-in on
positive finite payloads. Only the legs at `0` and `1` — where the source's
`ln` is exactly pinned — feed any theorem below; elsewhere `f64::ln` is
documented non-deterministic and the stand-in's values are not relied on. -/
def ln : F64 → F64
  | nan => nan
  | ninf => nan
  | inf => inf
  | val q => if q < 0 then nan else if q = 0 then ninf else val (lnApprox q)

end F64

/-- Rust `u64 as i64` cast (wrapping reinterpretation). -/
def u64AsI64 (n : ℕ) : ℤ :=
  if n < 2 ^ 63 then (n : ℤ) else (n : ℤ) - 2 ^ 64

/-- Rust `i64 as u64` cast (wrapping reinterpretation). -/
def i64AsU64 (x : ℤ) : ℕ :=
  (x % (2 ^ 64 : ℤ)).toNat

/-- Wrap an integer into the `i64` range `[-2^63, 2^63)`, the result of any
`i64` arithmetic in release mode. -/
def i64Wrap (x : ℤ) : ℤ :=
  (x + 2 ^ 63) % 2 ^ 64 - 2 ^ 63

/-! ## Exact binary64 rounding

The entropy-decay cast `(excess as f64 * 0.02) as u64` is the one place a
claim depends on the rounding of finite binary64 intermediates, so that
pipeline is modelled exactly: `rni` rounds a rational to the nearest
integer with ties to even, and `rnd64` rounds a rational to the nearest
binary64 value by normalizing its mantissa into `[2^52, 2^53)` and
rounding it to an integer. Subnormal and overflow thresholds are not
modelled — no value in this development approaches either. -/

/-- Round to the nearest integer, ties to even. -/
def rni (m : ℚ) : ℤ :=
  if m - ⌊m⌋ < 1 / 2 then ⌊m⌋
  else if 1 / 2 < m - ⌊m⌋ then ⌊m⌋ + 1
  else if 2 ∣ ⌊m⌋ then ⌊m⌋ else ⌊m⌋ + 1

/-- The binary64 value nearest a rational (round to nearest, ties to
even): the mantissa `q / 2^e`, normalized into `[2^52, 2^53)` by taking
`e = ⌊log₂ |q|⌋ - 52`, is rounded to an integer and scaled back. -/
def rnd64 (q : ℚ) : ℚ :=
  if q = 0 then 0
  else (rni (q / 2 ^ (Int.log 2 |q| - 52)) : ℚ) * 2 ^ (Int.log 2 |q| - 52)

/-- The binary64 value of the source literal `0.02`: the nearest double to
`1/50`, namely `5764607523034235 * 2^(-58)` (which exceeds `1/50` by
`6 / (50 * 2^58)`). -/
def f64Lit002 : ℚ := 5764607523034235 / 2 ^ 58

/-- The decay cast `(excess as f64 * 0.02) as u64` of `update_entropy` in
faithful binary64 arithmetic: the excess rounded to a double (`as f64`),
multiplied by the binary64 `0.02` with one correct rounding, then
truncated and saturated to `u64`. -/
def decayU64 (excess : ℕ) : ℕ :=
  (F64.val (rnd64 (rnd64 excess * f64Lit002))).toU64

/-! ## Data model (`src/types.rs`) -/

/-- Mirror of `DefenseArray`. -/
structure DefenseArray where
  l1 : ℕ
  l2 : ℕ
  l3 : ℕ
  last_update : ℤ
  cooldown_ends : Option ℤ
deriving DecidableEq, Repr

/-- Mirror of `TopologyPosition`. -/
structure TopologyPosition where
  latency_vector : List F64
  coords : Option (F64 × F64)
deriving DecidableEq, Repr

/-- Mirror of `Parasite`. -/
structure Parasite where
  node_id : String
  tax_rate : F64
  yield_per_tick : F64
  total_collected : ℕ
  established_at : ℤ
deriving DecidableEq, Repr

/-- Mirror of `Node`. -/
structure Node where
  id : String
  karma : ℕ
  distance : F64
  noise : F64
  estimated_defense : Option DefenseArray
deriving DecidableEq, Repr

/-- Mirror of `Climate`; the `serde_json::Value` modifiers field is carried
as its serialized text, which no claim inspects. -/
structure Climate where
  code : String
  description : String
  modifiers : String
  start_time : ℤ
deriving DecidableEq, Repr

/-- Mirror of `Player`. -/
structure Player where
  id : String
  karma : ℕ
  entropy : ℕ
  capacity : ℕ
  defense : DefenseArray
  position : TopologyPosition
  network_quality : F64
  passive_income : F64
  last_update : ℤ
deriving DecidableEq, Repr

/-- Mirror of `GameState`. -/
structure GameState where
  player : Player
  visible_nodes : List Node
  parasites : List Parasite
  climate : Climate
deriving DecidableEq, Repr

/-- Mirror of `Player::new`: zero entropy, `capacity = karma * 100`
(wrapping as every `u64` product does), empty defense with no cooldown,
neutral network quality. `Utc::now()` enters as the `now` parameter. -/
def Player.new (id : String) (karma : ℕ) (now : ℤ) : Player :=
  { id := id
    karma := karma
    entropy := 0
    capacity := karma * 100 % U64MOD
    defense := { l1 := 0, l2 := 0, l3 := 0, last_update := now, cooldown_ends := none }
    position := { latency_vector := [], coords := none }
    network_quality := F64.val 1
    passive_income := F64.val 0
    last_update := now }

/-- Mirror of `Player::calculate_inertia_seconds`:
`((karma as f64).ln() * 600.0) as u64`. The result is exactly pinned by
the source only at karma `0` (`ln` gives `-∞`, the cast saturates to `0`)
and karma `1` (`ln(1.0) = 0`): for karma `≥ 2` Rust's `f64::ln` has
documented non-deterministic precision, so those values are carried by
the `lnApprox` stand-in and no theorem relies on them. -/
def Player.calculate_inertia_seconds (p : Player) : ℕ :=
  (F64.mul (F64.ln (F64.val p.karma)) (F64.val 600)).toU64

/-! ## State store operations (`src/state.rs`)

Each `StateManager` method takes the whole state under one exclusive lock;
the embedding is the corresponding pure state transformer. Fallible
operations return the (possibly unchanged) state together with the
`Option`al error string, mirroring the early returns of the source. -/

/-- Mirror of `StateManager::new`. -/
def StateManager.new (player_id : String) (karma : ℕ) (now : ℤ) : GameState :=
  { player := Player.new player_id karma now
    visible_nodes := []
    parasites := []
    climate :=
      { code := "NORMAL"
        description := "Normal network conditions"
        modifiers := ""
        start_time := now } }

/-- Mirror of `StateManager::update_entropy`: a non-negative delta adds with
`u64` wrapping, a negative delta subtracts saturating at zero; then, if the
result exceeds capacity, the decay `(excess as f64 * 0.02) as u64` —
modelled by the exact binary64 pipeline `decayU64` — is subtracted
(saturating); `last_update` is stamped. -/
def StateManager.update_entropy (st : GameState) (delta : ℤ) (now : ℤ) : GameState :=
  let e1 :=
    if 0 ≤ delta then (st.player.entropy + delta.toNat) % U64MOD
    else st.player.entropy - delta.natAbs
  let e2 :=
    if st.player.capacity < e1 then
      let excess := e1 - st.player.capacity
      let decay := decayU64 excess
      e1 - decay
    else e1
  { st with player := { st.player with entropy := e2, last_update := now } }

/-- Whether `cooldown_ends` is set and strictly in the future — the guard
`update_defense` checks first. -/
def cooldownActive (st : GameState) (now : ℤ) : Bool :=
  match st.player.defense.cooldown_ends with
  | some ce => decide (now < ce)
  | none => false

/-- The state `update_defense` writes on success: the three allocations
overwritten, `last_update` stamped, and the cooldown set to
`now + calculate_inertia_seconds` seconds; nothing else changes. -/
def defenseSuccessState (st : GameState) (l1 l2 l3 : ℕ) (now : ℤ) : GameState :=
  { st with
    player :=
      { st.player with
        defense :=
          { l1 := l1, l2 := l2, l3 := l3, last_update := now
            cooldown_ends :=
              some (now + (st.player.calculate_inertia_seconds : ℤ)) } } }

/-- Mirror of `StateManager::update_defense` after the cooldown guard: the
wrapping `u64` sum of the three allocations is checked against entropy, and
on success the defense record is overwritten. -/
def updateDefenseBody (st : GameState) (l1 l2 l3 : ℕ) (now : ℤ) :
    GameState × Option String :=
  let total := (l1 + l2 + l3) % U64MOD
  if st.player.entropy < total then (st, some "Insufficient Entropy")
  else (defenseSuccessState st l1 l2 l3 now, none)

/-- Mirror of `StateManager::update_defense`: an active cooldown returns
the cooldown error with the remaining seconds, before any field is
touched; otherwise the body runs. -/
def StateManager.update_defense (st : GameState) (l1 l2 l3 : ℕ) (now : ℤ) :
    GameState × Option String :=
  match st.player.defense.cooldown_ends with
  | some ce =>
      if now < ce then
        (st, some ("Defense on cooldown for " ++ toString (ce - now) ++ " seconds"))
      else updateDefenseBody st l1 l2 l3 now
  | none => updateDefenseBody st l1 l2 l3 now

/-- Mirror of `StateManager::update_network_quality`: stores
`quality.clamp(0.1, 1.5)` (the literals exact in the model). -/
def StateManager.update_network_quality (st : GameState) (quality : F64) : GameState :=
  { st with player := { st.player with
      network_quality := F64.clamp quality (F64.val (1 / 10)) (F64.val (3 / 2)) } }

/-- Mirror of `StateManager::update_karma`: overwrites karma and recomputes
`capacity = new_karma * 100` (a wrapping `u64` product) in the same atomic
state transition. -/
def StateManager.update_karma (st : GameState) (new_karma : ℕ) : GameState :=
  { st with player := { st.player with
      karma := new_karma
      capacity := new_karma * 100 % U64MOD } }

/-- Mirror of `StateManager::get_snapshot`: a deep copy of the state — in a
pure embedding, the state itself. -/
def StateManager.get_snapshot (st : GameState) : GameState := st

/-! ## Signed sync requests (`src/sync/signed_sync.rs`) -/

/-- Model of `DeviceIdentity`: the Ed25519 `sign_base64` operation as an
abstract deterministic map from message text to encoded signature. -/
structure DeviceIdentity where
  signB64 : String → String

/-- Mirror of `SignedSyncRequest`, the cached `body_json` included. -/
structure SignedSyncRequest where
  device_id : String
  entropy_delta : ℤ
  network_quality : F64
  uptime_seconds : ℤ
  timestamp : ℤ
  nonce : String
  signature : String
  body_json : String

/-- The network-quality component of the body JSON, exactly as
`create_and_sign` formats it: a whole-number float is forced to carry a
trailing `.0` (Rust's `{:.1}`); any other value goes through `to_string`,
modelled by an explicit total rendering whose digits no claim inspects. -/
def qualityString : F64 → String
  | F64.val q =>
      if q.den = 1 then toString q.num ++ ".0"
      else toString q.num ++ "/" ++ toString q.den
  | F64.nan => "NaN"
  | F64.inf => "inf"
  | F64.ninf => "-inf"

/-- The body JSON `create_and_sign` builds by hand (never through a
serializer), byte for byte:
`{"entropy_delta":…,"network_quality":…,"uptime_seconds":…}`. -/
def syncBodyJson (entropy_delta : ℤ) (network_quality : F64) (uptime_seconds : ℕ) :
    String :=
  "\x7b\"entropy_delta\":" ++ toString entropy_delta ++
    ",\"network_quality\":" ++ qualityString network_quality ++
    ",\"uptime_seconds\":" ++ toString uptime_seconds ++ "\x7d"

/-- Mirror of `SignedSyncRequest::canonical_message`:
`POST|/api/devices/{id}/sync|{cached body}|{timestamp}|{nonce}`. -/
def SignedSyncRequest.canonical_message (r : SignedSyncRequest) : String :=
  "POST|/api/devices/" ++ r.device_id ++ "/sync|" ++ r.body_json ++ "|" ++
    toString r.timestamp ++ "|" ++ r.nonce

/-- Mirror of `SignedSyncRequest::body_string`: the cached `body_json`
field, returned unre-serialized. -/
def SignedSyncRequest.body_string (r : SignedSyncRequest) : String :=
  r.body_json

/-- Mirror of `SignedSyncRequest::headers`. -/
def SignedSyncRequest.headers (r : SignedSyncRequest) : List (String × String) :=
  [("x-device-id", r.device_id), ("x-signature", r.signature),
    ("x-timestamp", toString r.timestamp), ("x-nonce", r.nonce)]

/-- Mirror of `SignedSyncRequest::create_and_sign`. The fresh UUID nonce
and the `Utc::now().timestamp()` read enter as the `nonce` and `timestamp`
parameters; the body JSON is computed once, cached, and the signature is
taken over the canonical message built from that cache. The construction
is total: the source returns `Self`, with no failure path. -/
def SignedSyncRequest.create_and_sign (device_id : String) (entropy_delta : ℤ)
    (network_quality : F64) (uptime_seconds : ℕ) (identity : DeviceIdentity)
    (timestamp : ℤ) (nonce : String) : SignedSyncRequest :=
  let request : SignedSyncRequest :=
    { device_id := device_id
      entropy_delta := entropy_delta
      network_quality := network_quality
      uptime_seconds := u64AsI64 uptime_seconds
      timestamp := timestamp
      nonce := nonce
      signature := ""
      body_json := syncBodyJson entropy_delta network_quality uptime_seconds }
  { request with signature := identity.signB64 request.canonical_message }

/-- Mirror of `SyncResponse`. -/
structure SyncResponse where
  success : Bool
  device_entropy : ℤ
  device_karma : ℤ
  managed : Bool

/-- The HTTP body `sync_to_server` hands to the transport: exactly
`signed_request.body_string()` (source comment: using `.json()` would
re-serialize and could change the format). -/
def syncHttpBody (r : SignedSyncRequest) : String :=
  r.body_string

/-- The URL `sync_to_server` posts to. -/
def syncHttpUrl (server_url : String) (r : SignedSyncRequest) : String :=
  server_url ++ "/api/devices/" ++ r.device_id ++ "/sync"

/-! ## One tick of the sync loop (`src/sync/mod.rs`) -/

/-- Observable outcome of one iteration of `start_sync_loop`: the request
sent this tick (if any), the new `last_synced_entropy` baseline, and the
state after any karma write-back. -/
structure SyncTickOutcome where
  request : Option SignedSyncRequest
  last_synced : ℤ
  state : GameState

/-- Mirror of one iteration of `start_sync_loop`. The loop reads the
current entropy (as `i64`), takes the delta against `last_synced_entropy`;
a zero delta skips all network I/O and changes nothing. Otherwise a signed
request is built and sent; `server` is the transport's outcome (`none` for
any failure). On success karma is written back from the authoritative
response (`device_karma as u64`) and the baseline advances to the entropy
value just reported; on failure both are left unchanged for the next
fixed-interval tick. -/
def syncTick (st : GameState) (last_synced : ℤ) (device_id : String)
    (uptime_seconds : ℕ) (identity : DeviceIdentity) (timestamp : ℤ)
    (nonce : String) (server : Option SyncResponse) : SyncTickOutcome :=
  let current_entropy := u64AsI64 st.player.entropy
  let entropy_delta := i64Wrap (current_entropy - last_synced)
  if entropy_delta = 0 then
    { request := none, last_synced := last_synced, state := st }
  else
    let signed_request :=
      SignedSyncRequest.create_and_sign device_id entropy_delta (F64.val 1)
        uptime_seconds identity timestamp nonce
    match server with
    | none => { request := some signed_request, last_synced := last_synced, state := st }
    | some response =>
        { request := some signed_request
          last_synced := current_entropy
          state := StateManager.update_karma st (i64AsU64 response.device_karma) }

/-! ## Spec-side model of a fallible construction (§4.2 of the spec)

The spec's signer contract names a `ClockUnavailable` failure. The source
`create_and_sign` reads `Utc::now()` — an infallible call — and returns
`Self` unconditionally, so the two sides are compared over an explicit
clock environment: `some ts` when the clock is readable, `none` when not. -/

/-- Error outcome the spec's signer contract names. -/
inductive SignError where
  | clockUnavailable : SignError
deriving DecidableEq

/-- Modelled from the spec: request construction that fails with
`ClockUnavailable` when the system clock is unavailable (`clock = none`),
aborting before any network call, and otherwise signs at the clock's
timestamp. No such fallible path exists in the source. -/
def createAndSignSpec (clock : Option ℤ) (device_id : String) (entropy_delta : ℤ)
    (network_quality : F64) (uptime_seconds : ℕ) (identity : DeviceIdentity)
    (nonce : String) : Except SignError SignedSyncRequest :=
  match clock with
  | none => Except.error SignError.clockUnavailable
  | some ts =>
      Except.ok (SignedSyncRequest.create_and_sign device_id entropy_delta
        network_quality uptime_seconds identity ts nonce)

/-- The source constructor lifted to the spec's clock environment: the
source's clock read is infallible and the construction returns `Self`
unconditionally, so the lift is `ok` for every clock value; the default
timestamp for an unreadable clock is irrelevant to the `ok`-versus-`error`
comparison it exists for. -/
def createAndSignImpl (clock : Option ℤ) (device_id : String) (entropy_delta : ℤ)
    (network_quality : F64) (uptime_seconds : ℕ) (identity : DeviceIdentity)
    (nonce : String) : Except SignError SignedSyncRequest :=
  Except.ok (SignedSyncRequest.create_and_sign device_id entropy_delta
    network_quality uptime_seconds identity (clock.getD 0) nonce)

/-! ## WebSocket authentication (`src/websocket/client.rs`) -/

/-- Model of `WebSocketClient`: the device id and the Ed25519 signing key's
`sign`-then-base64 operation as an abstract deterministic map. -/
structure WebSocketClient where
  device_id : String
  signB64 : String → String

/-- Mirror of the canonical message `create_auth_signature` builds for the
once-per-connection authentication frame: `WS|/ws|AUTH|{timestamp}|{nonce}`. -/
def wsAuthCanonical (timestamp : ℤ) (nonce : String) : String :=
  "WS|/ws|AUTH|" ++ toString timestamp ++ "|" ++ nonce

/-- Mirror of `WebSocketClient::create_auth_signature`: signs the canonical
message and returns the (timestamp, nonce, base64 signature) triple the
`AUTH` frame carries. -/
def WebSocketClient.create_auth_signature (c : WebSocketClient) (timestamp : ℤ)
    (nonce : String) : ℤ × String × String :=
  (timestamp, nonce, c.signB64 (wsAuthCanonical timestamp nonce))

/-- Modelled from the spec: the canonical message the claim asserts —
`METHOD|PATH|BODY|TIMESTAMP|NONCE` with method `WS`, the fixed literal path
`/ws`, and an empty body component. -/
def wsAuthCanonicalClaimed (timestamp : ℤ) (nonce : String) : String :=
  "WS" ++ "|" ++ "/ws" ++ "|" ++ "" ++ "|" ++ toString timestamp ++ "|" ++ nonce

/-! ## Network quality (`src/network/probe.rs`) -/

/-- Rust `latencies.iter().sum::<f64>()`: a left fold of IEEE addition
starting from `0.0`. -/
def sumF64 (l : List F64) : F64 :=
  l.foldl F64.add (F64.val 0)

/-- Mirror of `NetworkProbe::calculate_network_quality`: the mean latency
(`sum / len as f64` — NaN on the empty slice, where it is `0.0 / 0.0`)
classified by the step function with bands at 30, 100, 200 and 500 ms. -/
def calculate_network_quality (latencies : List F64) : F64 :=
  let avg_latency := F64.div (sumF64 latencies) (F64.val latencies.length)
  if F64.lt avg_latency (F64.val 30) then F64.val (3 / 2)
  else if F64.lt avg_latency (F64.val 100) then F64.val (6 / 5)
  else if F64.lt avg_latency (F64.val 200) then F64.val 1
  else if F64.lt avg_latency (F64.val 500) then F64.val (1 / 2)
  else F64.val (1 / 10)

/-! ## Concrete inputs shared by witnesses and counterexamples -/

/-- A concrete game state with the given karma, entropy, capacity and
cooldown, every other field as `StateManager::new` would build it. -/
def mkState (karma entropy capacity : ℕ) (cooldown : Option ℤ) : GameState :=
  { player :=
      { id := "player-1"
        karma := karma
        entropy := entropy
        capacity := capacity
        defense := { l1 := 0, l2 := 0, l3 := 0, last_update := 0, cooldown_ends := cooldown }
        position := { latency_vector := [], coords := none }
        network_quality := F64.val 1
        passive_income := F64.val 0
        last_update := 0 }
    visible_nodes := []
    parasites := []
    climate :=
      { code := "NORMAL"
        description := "Normal network conditions"
        modifiers := ""
        start_time := 0 } }

/-- A concrete identity whose signing map tags the message, enough to watch
what is signed. -/
def idEx : DeviceIdentity :=
  { signB64 := fun m => "sig:" ++ m }

/-! ## Helper lemmas shared by the claim theorems -/

/-- The nearest integer is at least the floor. -/
lemma rni_ge_floor (m : ℚ) : (⌊m⌋ : ℚ) ≤ (rni m : ℚ) := by
  unfold rni
  split_ifs <;> push_cast <;> linarith

/-- The nearest integer overshoots by at most one half. -/
lemma rni_le_add_half (m : ℚ) : (rni m : ℚ) ≤ m + 1 / 2 := by
  unfold rni
  have hf := Int.floor_le m
  split_ifs <;> push_cast <;> linarith

/-- The nearest integer of an integer is itself. -/
lemma rni_intCast (z : ℤ) : rni (z : ℚ) = z := by
  unfold rni
  rw [Int.floor_intCast]
  norm_num

/-- Evaluation of `rni` strictly above the half-integer tie. -/
lemma rni_eq_of_gt_half (m : ℚ) (f : ℤ) (hfl : (f : ℚ) ≤ m) (hfu : m < f + 1)
    (hhalf : 1 / 2 < m - f) : rni m = f + 1 := by
  have hfloor : ⌊m⌋ = f := Int.floor_eq_iff.mpr ⟨hfl, hfu⟩
  unfold rni
  rw [hfloor, if_neg (by linarith), if_pos (by linarith)]

/-- Mantissa normalization: for positive `q` the scaled value
`q / 2^(log₂ q - 52)` lies in `[2^52, 2^53)`. -/
lemma mantissa_bounds (q : ℚ) (hq : 0 < q) :
    (2 : ℚ) ^ (52 : ℕ) ≤ q / 2 ^ (Int.log 2 q - 52)
    ∧ q / 2 ^ (Int.log 2 q - 52) < 2 ^ (53 : ℕ) := by
  have h1 : ((2 : ℕ) : ℚ) ^ Int.log 2 q ≤ q := Int.zpow_log_le_self one_lt_two hq
  have h2 : q < ((2 : ℕ) : ℚ) ^ (Int.log 2 q + 1) := Int.lt_zpow_succ_log_self one_lt_two q
  push_cast at h1 h2
  have hpow : (0 : ℚ) < (2 : ℚ) ^ (Int.log 2 q - 52) := zpow_pos (by norm_num) _
  have hsplit1 : (2 : ℚ) ^ (52 : ℕ) * (2 : ℚ) ^ (Int.log 2 q - 52) = (2 : ℚ) ^ Int.log 2 q := by
    rw [← zpow_natCast (2 : ℚ) 52, ← zpow_add₀ (two_ne_zero)]
    congr 1
    push_cast
    ring
  have hsplit2 : (2 : ℚ) ^ (53 : ℕ) * (2 : ℚ) ^ (Int.log 2 q - 52) =
      (2 : ℚ) ^ (Int.log 2 q + 1) := by
    rw [← zpow_natCast (2 : ℚ) 53, ← zpow_add₀ (two_ne_zero)]
    congr 1
    push_cast
    ring
  constructor
  · rw [le_div_iff₀ hpow, hsplit1]
    exact h1
  · rw [div_lt_iff₀ hpow, hsplit2]
    exact h2

/-- Rounding a positive value stays positive. -/
lemma rnd64_pos (q : ℚ) (hq : 0 < q) : 0 < rnd64 q := by
  unfold rnd64
  rw [if_neg hq.ne', abs_of_pos hq]
  have hm := (mantissa_bounds q hq).1
  have hone : (1 : ℚ) ≤ q / 2 ^ (Int.log 2 q - 52) := le_trans (by norm_num) hm
  have hfl : (1 : ℤ) ≤ ⌊q / 2 ^ (Int.log 2 q - 52)⌋ :=
    Int.le_floor.mpr (by exact_mod_cast hone)
  have hrni : (1 : ℚ) ≤ (rni (q / 2 ^ (Int.log 2 q - 52)) : ℚ) :=
    le_trans (by exact_mod_cast hfl) (rni_ge_floor _)
  have hpow : (0 : ℚ) < (2 : ℚ) ^ (Int.log 2 q - 52) := zpow_pos (by norm_num) _
  exact mul_pos (lt_of_lt_of_le one_pos hrni) hpow

/-- Error bound of `rnd64` on positive values: the rounded value overshoots
by at most half an ulp, `q / 2^53`. -/
lemma rnd64_le (q : ℚ) (hq : 0 < q) : rnd64 q ≤ q + q / 2 ^ (53 : ℕ) := by
  unfold rnd64
  rw [if_neg hq.ne', abs_of_pos hq]
  have hpow : (0 : ℚ) < (2 : ℚ) ^ (Int.log 2 q - 52) := zpow_pos (by norm_num) _
  have h1 : (rni (q / 2 ^ (Int.log 2 q - 52)) : ℚ) ≤ q / 2 ^ (Int.log 2 q - 52) + 1 / 2 :=
    rni_le_add_half _
  have h2 : (2 : ℚ) ^ (Int.log 2 q - 52) ≤ q / 2 ^ (52 : ℕ) := by
    have hm := (mantissa_bounds q hq).1
    rw [le_div_iff₀ hpow] at hm
    rw [le_div_iff₀ (by positivity : (0 : ℚ) < (2 : ℚ) ^ (52 : ℕ))]
    linarith
  calc (rni (q / 2 ^ (Int.log 2 q - 52)) : ℚ) * 2 ^ (Int.log 2 q - 52)
      ≤ (q / 2 ^ (Int.log 2 q - 52) + 1 / 2) * 2 ^ (Int.log 2 q - 52) :=
        mul_le_mul_of_nonneg_right h1 hpow.le
    _ = q + 2 ^ (Int.log 2 q - 52) / 2 := by
        rw [add_mul, div_mul_cancel₀ q (ne_of_gt hpow), one_div, inv_mul_eq_div]
    _ ≤ q + q / 2 ^ (52 : ℕ) / 2 := by linarith
    _ = q + q / 2 ^ (53 : ℕ) := by rw [div_div]; norm_num

/-- A positive value below `2^53` has base-2 logarithm at most 52. -/
lemma log2_le_52 (q : ℚ) (hq : 0 < q) (h : q < 2 ^ (53 : ℕ)) : Int.log 2 q ≤ 52 := by
  by_contra hcon
  push_neg at hcon
  have h53 : ((2 : ℕ) : ℚ) ^ (53 : ℤ) ≤ q :=
    (Int.zpow_le_iff_le_log one_lt_two hq).mpr (by omega)
  rw [show ((53 : ℤ)) = ((53 : ℕ) : ℤ) by norm_num, zpow_natCast] at h53
  push_cast at h53
  linarith

/-- Rounding respects natural lower bounds for values below `2^53`: the
exponent is non-positive there, so the rounding grid contains the
integers. -/
lemma rnd64_ge_nat (n : ℕ) (q : ℚ) (hq : 0 < q) (hqs : q < 2 ^ (53 : ℕ))
    (hn : (n : ℚ) ≤ q) : (n : ℚ) ≤ rnd64 q := by
  unfold rnd64
  rw [if_neg hq.ne', abs_of_pos hq]
  have hle0 : Int.log 2 q - 52 ≤ 0 := by
    have := log2_le_52 q hq hqs
    omega
  set d : ℕ := (-(Int.log 2 q - 52)).toNat with hd
  have hed : (2 : ℚ) ^ (Int.log 2 q - 52) = ((2 : ℚ) ^ d)⁻¹ := by
    rw [show Int.log 2 q - 52 = -(d : ℤ) by omega, zpow_neg, zpow_natCast]
  have hm : q / (2 : ℚ) ^ (Int.log 2 q - 52) = q * 2 ^ d := by
    rw [hed, div_eq_mul_inv, inv_inv]
  have hNle : ((n * 2 ^ d : ℕ) : ℚ) ≤ q * 2 ^ d := by
    push_cast
    exact mul_le_mul_of_nonneg_right hn (by positivity)
  have hfloor : ((n * 2 ^ d : ℕ) : ℤ) ≤ ⌊q * 2 ^ d⌋ :=
    Int.le_floor.mpr (by exact_mod_cast hNle)
  have hrni : ((n * 2 ^ d : ℕ) : ℚ) ≤ (rni (q * 2 ^ d) : ℚ) := by
    refine le_trans ?_ (rni_ge_floor _)
    exact_mod_cast hfloor
  rw [hm, hed]
  have hdpos : (0 : ℚ) ≤ ((2 : ℚ) ^ d)⁻¹ := by positivity
  calc (n : ℚ) = ((n * 2 ^ d : ℕ) : ℚ) * ((2 : ℚ) ^ d)⁻¹ := by
        push_cast
        field_simp
    _ ≤ (rni (q * 2 ^ d) : ℚ) * ((2 : ℚ) ^ d)⁻¹ :=
        mul_le_mul_of_nonneg_right hrni hdpos

/-- Rounding fixes the naturals below `2^53` (`n as f64` is exact there). -/
lemma rnd64_natCast (n : ℕ) (h : (n : ℚ) < 2 ^ (53 : ℕ)) : rnd64 (n : ℚ) = n := by
  rcases Nat.eq_zero_or_pos n with h0 | hpos
  · subst h0
    simp [rnd64]
  · have hq : (0 : ℚ) < (n : ℚ) := by exact_mod_cast hpos
    unfold rnd64
    rw [if_neg hq.ne', abs_of_pos hq]
    have hle0 : Int.log 2 (n : ℚ) - 52 ≤ 0 := by
      have := log2_le_52 _ hq h
      omega
    set d : ℕ := (-(Int.log 2 (n : ℚ) - 52)).toNat with hd
    have hed : (2 : ℚ) ^ (Int.log 2 (n : ℚ) - 52) = ((2 : ℚ) ^ d)⁻¹ := by
      rw [show Int.log 2 (n : ℚ) - 52 = -(d : ℤ) by omega, zpow_neg, zpow_natCast]
    have hm : (n : ℚ) / (2 : ℚ) ^ (Int.log 2 (n : ℚ) - 52) = (((n * 2 ^ d : ℕ) : ℤ) : ℚ) := by
      rw [hed, div_eq_mul_inv, inv_inv]
      push_cast
      ring
    rw [hm, rni_intCast, hed]
    push_cast
    field_simp

/-- The decay cast agrees with the claim's exact `floor(excess / 50)` for
every excess up to `2^52`: there `excess as f64` is exact and the one
rounding of the product cannot cross the next fiftieth boundary. -/
lemma decayU64_eq_div50 (excess : ℕ) (h : excess ≤ 2 ^ 52) :
    decayU64 excess = excess / 50 := by
  rcases Nat.eq_zero_or_pos excess with h0 | hpos
  · subst h0
    show (F64.val (rnd64 (rnd64 ((0 : ℕ) : ℚ) * f64Lit002))).toU64 = 0
    norm_num [rnd64, F64.toU64]
  · have hqc : (excess : ℚ) ≤ 2 ^ 52 := by exact_mod_cast h
    have hx0 : rnd64 (excess : ℚ) = (excess : ℚ) :=
      rnd64_natCast excess (by nlinarith)
    have hcpos : (0 : ℚ) < f64Lit002 := by norm_num [f64Lit002]
    have hepos : (0 : ℚ) < (excess : ℚ) := by exact_mod_cast hpos
    have hxpos : (0 : ℚ) < (excess : ℚ) * f64Lit002 := mul_pos hepos hcpos
    have hxlt : (excess : ℚ) * f64Lit002 < 2 ^ (53 : ℕ) := by
      have ha : (excess : ℚ) * f64Lit002 ≤ 2 ^ 52 * f64Lit002 :=
        mul_le_mul_of_nonneg_right hqc hcpos.le
      have hb : (2 ^ 52 : ℚ) * f64Lit002 < 2 ^ (53 : ℕ) := by norm_num [f64Lit002]
      linarith
    have hnx : ((excess / 50 : ℕ) : ℚ) ≤ (excess : ℚ) * f64Lit002 := by
      have h50 : ((excess / 50 : ℕ) : ℚ) * 50 ≤ (excess : ℚ) := by
        exact_mod_cast Nat.div_mul_le_self excess 50
      have hc15 : (1 / 50 : ℚ) ≤ f64Lit002 := by norm_num [f64Lit002]
      have hmul : (excess : ℚ) * (1 / 50) ≤ (excess : ℚ) * f64Lit002 :=
        mul_le_mul_of_nonneg_left hc15 hepos.le
      linarith
    have hexle : (excess : ℚ) ≤ 50 * ((excess / 50 : ℕ) : ℚ) + 49 := by
      have hmod := Nat.div_add_mod excess 50
      have hlt : excess % 50 < 50 := Nat.mod_lt excess (by norm_num)
      have : excess ≤ 50 * (excess / 50) + 49 := by omega
      exact_mod_cast this
    have hnle : ((excess / 50 : ℕ) : ℚ) ≤ 90071992547409 := by
      have h1 : excess / 50 ≤ 2 ^ 52 / 50 := Nat.div_le_div_right h
      have h2 : (2 ^ 52 : ℕ) / 50 = 90071992547409 := by norm_num
      exact_mod_cast h1.trans_eq h2
    have hxle : (excess : ℚ) * f64Lit002 ≤ (50 * ((excess / 50 : ℕ) : ℚ) + 49) * f64Lit002 :=
      mul_le_mul_of_nonneg_right hexle hcpos.le
    have hub : (excess : ℚ) * f64Lit002 + (excess : ℚ) * f64Lit002 / 2 ^ (53 : ℕ) <
        ((excess / 50 : ℕ) : ℚ) + 1 := by
      unfold f64Lit002 at hxle ⊢
      linarith
    have hlow := rnd64_ge_nat (excess / 50) _ hxpos hxlt hnx
    have hup := rnd64_le _ hxpos
    have hfl : ⌊rnd64 ((excess : ℚ) * f64Lit002)⌋₊ = excess / 50 := by
      rw [Nat.floor_eq_iff (le_of_lt (rnd64_pos _ hxpos))]
      exact ⟨hlow, lt_of_le_of_lt hup hub⟩
    unfold decayU64
    rw [hx0]
    show (if rnd64 ((excess : ℚ) * f64Lit002) ≤ 0 then 0
          else min (U64MOD - 1) ⌊rnd64 ((excess : ℚ) * f64Lit002)⌋₊) = excess / 50
    rw [if_neg (not_le.mpr (rnd64_pos _ hxpos)), hfl]
    have hsmall : excess / 50 ≤ U64MOD - 1 := by
      have := Nat.div_le_self excess 50
      unfold U64MOD at *
      omega
    exact min_eq_right hsmall

/-- Uniqueness of the base-2 logarithm from a two-sided power bound. -/
lemma log2_eq_of_bounds (q : ℚ) (z : ℤ) (hq : 0 < q)
    (h1 : (2 : ℚ) ^ z ≤ q) (h2 : q < (2 : ℚ) ^ (z + 1)) : Int.log 2 q = z := by
  have ha : ((2 : ℕ) : ℚ) ^ z ≤ q := by push_cast; exact h1
  have hb : q < ((2 : ℕ) : ℚ) ^ (z + 1) := by push_cast; exact h2
  have hc := (Int.zpow_le_iff_le_log one_lt_two hq).mp ha
  have hd := (Int.lt_zpow_iff_log_lt one_lt_two hq).mp hb
  omega

/-- Evaluation of `i64::MAX as f64`: `2^63 - 1` rounds up to `2^63` (its
mantissa sits `1023/1024` above an even integer). -/
lemma rnd64_i64max : rnd64 ((9223372036854775807 : ℕ) : ℚ) = 9223372036854775808 := by
  have hcast : ((9223372036854775807 : ℕ) : ℚ) = (9223372036854775807 : ℚ) := by norm_num
  rw [hcast]
  have hq : (0 : ℚ) < 9223372036854775807 := by norm_num
  have hlog : Int.log 2 (9223372036854775807 : ℚ) = 62 := by
    apply log2_eq_of_bounds _ _ hq
    · rw [show ((62 : ℤ)) = ((62 : ℕ) : ℤ) by norm_num, zpow_natCast]
      norm_num
    · rw [show ((62 : ℤ) + 1) = ((63 : ℕ) : ℤ) by norm_num, zpow_natCast]
      norm_num
  unfold rnd64
  rw [if_neg hq.ne', abs_of_pos hq, hlog]
  rw [show ((62 : ℤ) - 52) = ((10 : ℕ) : ℤ) by norm_num, zpow_natCast]
  have harg : (9223372036854775807 : ℚ) / 2 ^ (10 : ℕ) = 9223372036854775807 / 1024 := by
    norm_num
  rw [harg, rni_eq_of_gt_half (9223372036854775807 / 1024) 9007199254740991
    (by norm_num) (by norm_num) (by norm_num)]
  norm_num

/-- The product `2^63 * 0.02₆₄ = 184467440737095520` is itself exactly
representable (`5764607523034235 * 2^5`), so the second rounding fixes it. -/
lemma rnd64_fix_decay : rnd64 (184467440737095520 : ℚ) = 184467440737095520 := by
  have hq : (0 : ℚ) < 184467440737095520 := by norm_num
  have hlog : Int.log 2 (184467440737095520 : ℚ) = 57 := by
    apply log2_eq_of_bounds _ _ hq
    · rw [show ((57 : ℤ)) = ((57 : ℕ) : ℤ) by norm_num, zpow_natCast]
      norm_num
    · rw [show ((57 : ℤ) + 1) = ((58 : ℕ) : ℤ) by norm_num, zpow_natCast]
      norm_num
  unfold rnd64
  rw [if_neg hq.ne', abs_of_pos hq, hlog]
  rw [show ((57 : ℤ) - 52) = ((5 : ℕ) : ℤ) by norm_num, zpow_natCast]
  have harg : (184467440737095520 : ℚ) / 2 ^ (5 : ℕ) = ((5764607523034235 : ℤ) : ℚ) := by
    norm_num
  rw [harg, rni_intCast]
  norm_num

/-- The full decay pipeline at the reachable excess `i64::MAX`: the code's
binary64 computation yields `184467440737095520`, four more than the exact
`floor(excess / 50) = 184467440737095516`. -/
lemma decayU64_i64max : decayU64 9223372036854775807 = 184467440737095520 := by
  unfold decayU64
  rw [rnd64_i64max]
  have hmul : (9223372036854775808 : ℚ) * f64Lit002 = 184467440737095520 := by
    norm_num [f64Lit002]
  rw [hmul, rnd64_fix_decay]
  show (if (184467440737095520 : ℚ) ≤ 0 then 0
        else min (U64MOD - 1) ⌊(184467440737095520 : ℚ)⌋₊) = 184467440737095520
  rw [if_neg (by norm_num),
    show ((184467440737095520 : ℚ)) = ((184467440737095520 : ℕ) : ℚ) by norm_num,
    Nat.floor_natCast]
  rw [min_eq_right (by unfold U64MOD; norm_num)]

/-- Closed form of `update_entropy` under the no-overflow bound: the
intermediate `max(0, E+D)` followed by the binary64 decay exactly when it
exceeds capacity. -/
lemma update_entropy_closed_form (st : GameState) (delta now : ℤ)
    (hov : (st.player.entropy : ℤ) + delta < 2 ^ 64) :
    (StateManager.update_entropy st delta now).player.entropy =
      (if st.player.capacity < ((st.player.entropy : ℤ) + delta).toNat then
        ((st.player.entropy : ℤ) + delta).toNat -
          decayU64 (((st.player.entropy : ℤ) + delta).toNat - st.player.capacity)
      else ((st.player.entropy : ℤ) + delta).toNat)
    ∧ (StateManager.update_entropy st delta now).player.last_update = now := by
  unfold StateManager.update_entropy
  have hinter :
      (if 0 ≤ delta then (st.player.entropy + delta.toNat) % U64MOD
        else st.player.entropy - delta.natAbs) =
        ((st.player.entropy : ℤ) + delta).toNat := by
    by_cases hd : 0 ≤ delta
    · rw [if_pos hd]
      have hlt : st.player.entropy + delta.toNat < U64MOD := by
        simp only [U64MOD]
        omega
      rw [Nat.mod_eq_of_lt hlt]
      omega
    · rw [if_neg hd]
      omega
  refine ⟨?_, rfl⟩
  simp only [hinter]

/-- With an active cooldown, `update_defense` returns the cooldown error,
the remaining seconds inside, and the untouched state. -/
lemma updateDefense_of_active (st : GameState) (l1 l2 l3 : ℕ) (now ce : ℤ)
    (hce : st.player.defense.cooldown_ends = some ce) (hlt : now < ce) :
    StateManager.update_defense st l1 l2 l3 now =
      (st, some ("Defense on cooldown for " ++ toString (ce - now) ++ " seconds")) := by
  unfold StateManager.update_defense
  rw [hce]
  exact if_pos hlt

/-- With no active cooldown, `update_defense` falls through to the entropy
check and the write. -/
lemma updateDefense_of_inactive (st : GameState) (l1 l2 l3 : ℕ) (now : ℤ)
    (h : cooldownActive st now = false) :
    StateManager.update_defense st l1 l2 l3 now = updateDefenseBody st l1 l2 l3 now := by
  unfold StateManager.update_defense
  unfold cooldownActive at h
  rcases hce : st.player.defense.cooldown_ends with - | ce
  · rfl
  · rw [hce] at h
    simp only [decide_eq_false_iff_not, not_lt] at h
    exact if_neg (not_lt.mpr h)

/-- An active cooldown flag yields its instant and the strict bound. -/
lemma cooldownActive_elim (st : GameState) (now : ℤ)
    (h : cooldownActive st now = true) :
    ∃ ce, st.player.defense.cooldown_ends = some ce ∧ now < ce := by
  unfold cooldownActive at h
  rcases hce : st.player.defense.cooldown_ends with - | ce
  · rw [hce] at h; cases h
  · rw [hce] at h
    simp only [decide_eq_true_eq] at h
    exact ⟨ce, rfl, h⟩

/-- Success condition of `update_defense`: no error exactly when the
cooldown guard passes and the wrapping sum of the allocations fits in the
available entropy. -/
lemma updateDefense_snd_eq_none_iff (st : GameState) (l1 l2 l3 : ℕ) (now : ℤ) :
    (StateManager.update_defense st l1 l2 l3 now).2 = none ↔
      (cooldownActive st now = false ∧ (l1 + l2 + l3) % U64MOD ≤ st.player.entropy) := by
  cases hact : cooldownActive st now
  · rw [updateDefense_of_inactive st l1 l2 l3 now hact]
    simp only [updateDefenseBody]
    by_cases hins : st.player.entropy < (l1 + l2 + l3) % U64MOD
    · rw [if_pos hins]
      constructor
      · intro h; cases h
      · rintro ⟨-, hle⟩; omega
    · rw [if_neg hins]
      exact ⟨fun _ => ⟨by trivial, by omega⟩, fun _ => rfl⟩
  · obtain ⟨ce, hce, hlt⟩ := cooldownActive_elim st now hact
    rw [updateDefense_of_active st l1 l2 l3 now ce hce hlt]
    simp

/-- On success `update_defense` yields exactly the success state. -/
lemma updateDefense_fst_of_success (st : GameState) (l1 l2 l3 : ℕ) (now : ℤ)
    (h : (StateManager.update_defense st l1 l2 l3 now).2 = none) :
    (StateManager.update_defense st l1 l2 l3 now).1 =
      defenseSuccessState st l1 l2 l3 now := by
  obtain ⟨hact, hle⟩ := (updateDefense_snd_eq_none_iff st l1 l2 l3 now).mp h
  rw [updateDefense_of_inactive st l1 l2 l3 now hact]
  simp only [updateDefenseBody]
  rw [if_neg (not_lt.mpr hle)]

/-- On any error return `update_defense` leaves the state untouched. -/
lemma updateDefense_fst_of_error (st : GameState) (l1 l2 l3 : ℕ) (now : ℤ)
    (h : (StateManager.update_defense st l1 l2 l3 now).2 ≠ none) :
    (StateManager.update_defense st l1 l2 l3 now).1 = st := by
  cases hact : cooldownActive st now
  · rw [updateDefense_of_inactive st l1 l2 l3 now hact] at h ⊢
    simp only [updateDefenseBody] at h ⊢
    by_cases hins : st.player.entropy < (l1 + l2 + l3) % U64MOD
    · rw [if_pos hins]
    · rw [if_neg hins] at h
      exact absurd rfl h
  · obtain ⟨ce, hce, hlt⟩ := cooldownActive_elim st now hact
    rw [updateDefense_of_active st l1 l2 l3 now ce hce hlt]

/-- Neither branch of `update_defense` touches karma or capacity. -/
lemma updateDefense_karma_capacity (st : GameState) (l1 l2 l3 : ℕ) (now : ℤ) :
    (StateManager.update_defense st l1 l2 l3 now).1.player.karma = st.player.karma ∧
    (StateManager.update_defense st l1 l2 l3 now).1.player.capacity = st.player.capacity := by
  cases hact : cooldownActive st now
  · rw [updateDefense_of_inactive st l1 l2 l3 now hact]
    simp only [updateDefenseBody]
    by_cases hins : st.player.entropy < (l1 + l2 + l3) % U64MOD
    · rw [if_pos hins]; exact ⟨rfl, rfl⟩
    · rw [if_neg hins]; exact ⟨rfl, rfl⟩
  · obtain ⟨ce, hce, hlt⟩ := cooldownActive_elim st now hact
    rw [updateDefense_of_active st l1 l2 l3 now ce hce hlt]
    exact ⟨rfl, rfl⟩

/-- The inertia computation at karma `0`: `ln(0.0) = -∞`, the product with
`600.0` stays `-∞`, and the saturating cast clamps to `0`. -/
lemma inertia_karma_zero (p : Player) (h : p.karma = 0) :
    p.calculate_inertia_seconds = 0 := by
  unfold Player.calculate_inertia_seconds
  rw [h]
  norm_num [F64.ln, F64.mul, F64.toU64]

/-- The inertia computation at karma `1`: `ln(1.0) = 0.0` exactly, so the
cooldown is zero seconds. -/
lemma inertia_karma_one (p : Player) (h : p.karma = 1) :
    p.calculate_inertia_seconds = 0 := by
  unfold Player.calculate_inertia_seconds
  rw [h]
  norm_num [F64.ln, F64.lnApprox, F64.mul, F64.toU64]

/-! ## The claims -/

/-- Claim C1: for every request built by `create_and_sign`, the body string
the canonical message (and hence the signature) is computed over is
byte-for-byte the body string handed to the HTTP transport — both are the
one cached `body_json` field, with whole-number floats carrying a trailing
`.0` fixed before signing and never re-serialized afterwards. -/
theorem claim_C1_signed_body_is_wire_body (d : String) (delta : ℤ) (q : F64)
    (u : ℕ) (identity : DeviceIdentity) (ts : ℤ) (n : String) :
    (SignedSyncRequest.create_and_sign d delta q u identity ts n).body_string =
      (SignedSyncRequest.create_and_sign d delta q u identity ts n).body_json
    ∧ syncHttpBody (SignedSyncRequest.create_and_sign d delta q u identity ts n) =
      (SignedSyncRequest.create_and_sign d delta q u identity ts n).body_string
    ∧ (SignedSyncRequest.create_and_sign d delta q u identity ts n).canonical_message =
      "POST|/api/devices/" ++ d ++ "/sync|" ++
        (SignedSyncRequest.create_and_sign d delta q u identity ts n).body_string ++
        "|" ++ toString ts ++ "|" ++ n
    ∧ (SignedSyncRequest.create_and_sign d delta q u identity ts n).signature =
      identity.signB64
        (SignedSyncRequest.create_and_sign d delta q u identity ts n).canonical_message
    ∧ (SignedSyncRequest.create_and_sign d delta q u identity ts n).body_json =
      syncBodyJson delta q u
    ∧ (q.fractIsZero = true → ∃ m : ℤ, qualityString q = toString m ++ ".0") := by
  refine ⟨rfl, rfl, rfl, rfl, rfl, ?_⟩
  intro h
  cases q with
  | val p =>
      refine ⟨p.num, ?_⟩
      have hden : p.den = 1 := by simpa [F64.fractIsZero] using h
      simp [qualityString, hden]
  | nan => simp [F64.fractIsZero] at h
  | inf => simp [F64.fractIsZero] at h
  | ninf => simp [F64.fractIsZero] at h

/-- Claim C1 witness: the identities at a concrete request, with the
whole-number quality `1.0` forcing the trailing `.0`. -/
theorem claim_C1_witness :
    (SignedSyncRequest.create_and_sign "dev-123" 500 (F64.val 1) 60 idEx 1738576800
        "nonce-123").body_string =
      (SignedSyncRequest.create_and_sign "dev-123" 500 (F64.val 1) 60 idEx 1738576800
        "nonce-123").body_json
    ∧ ∃ m : ℤ, qualityString (F64.val 1) = toString m ++ ".0" := by
  have h := claim_C1_signed_body_is_wire_body "dev-123" 500 (F64.val 1) 60 idEx
    1738576800 "nonce-123"
  exact ⟨h.1, h.2.2.2.2.2 (by decide)⟩

/-- Claim C2 counterexample, two divergences at valid inputs. At entropy
`E = 2^64 - 1`, delta `+1`, capacity `2^64 - 1`, the wrapping `u64`
addition yields final entropy `0` while the claim's formula predicts the
nonzero `2^64`. And inside the no-overflow region, at `E = 0`,
`D = i64::MAX = 2^63 - 1`, capacity `0`, the code's binary64 decay
`(excess as f64 * 0.02) as u64` is `184467440737095520` — `excess as f64`
rounds `2^63 - 1` up to `2^63` — whereas the claim's exact
`floor(excess * 0.02) = excess div 50` is `184467440737095516`, so the
final entropies differ by four. -/
theorem claim_C2_counterexample :
    (StateManager.update_entropy (mkState 1 (2 ^ 64 - 1) (2 ^ 64 - 1) none) 1 7).player.entropy
        = 0
    ∧ max 0 ((2 ^ 64 - 1 : ℤ) + 1) -
        (max 0 ((2 ^ 64 - 1 : ℤ) + 1) - (2 ^ 64 - 1)) / 50 ≠ 0
    ∧ (StateManager.update_entropy (mkState 0 0 0 none) 9223372036854775807 7).player.entropy
        = 9223372036854775807 - 184467440737095520
    ∧ (9223372036854775807 : ℕ) / 50 = 184467440737095516
    ∧ (184467440737095520 : ℕ) ≠ 184467440737095516 := by
  refine ⟨by decide, by decide, ?_, by decide, by decide⟩
  have hcf := update_entropy_closed_form (mkState 0 0 0 none) 9223372036854775807 7 (by decide)
  rw [hcf.1]
  have harg : ((mkState 0 0 0 none).player.entropy : ℤ) + 9223372036854775807 =
      9223372036854775807 := by decide
  rw [harg]
  have htn : (9223372036854775807 : ℤ).toNat = 9223372036854775807 := by decide
  rw [htn]
  have hcap : (mkState 0 0 0 none).player.capacity < 9223372036854775807 := by decide
  rw [if_pos hcap]
  have hsub : 9223372036854775807 - (mkState 0 0 0 none).player.capacity =
      (9223372036854775807 : ℕ) := by decide
  rw [hsub, decayU64_i64max]

/-- Claim C2 (amended as the counterexamples force): for every starting
entropy `E` and signed delta `D` with `E + D < 2^64` (no `u64` overflow),
`update_entropy(D)` sets entropy to `max(0, E+D)` and then, exactly when
that intermediate result exceeds capacity, subtracts the decay
`(excess as f64 * 0.02) as u64` computed in binary64 (saturating), and
otherwise subtracts nothing; whenever the excess is at most `2^52` that
decay equals the claim's exact `floor((result - capacity) * 0.02)
= excess div 50`; `last_update` is stamped. -/
theorem claim_C2_update_entropy (st : GameState) (delta now : ℤ)
    (hov : (st.player.entropy : ℤ) + delta < 2 ^ 64) :
    (StateManager.update_entropy st delta now).player.entropy =
      (if st.player.capacity < ((st.player.entropy : ℤ) + delta).toNat then
        ((st.player.entropy : ℤ) + delta).toNat -
          decayU64 (((st.player.entropy : ℤ) + delta).toNat - st.player.capacity)
      else ((st.player.entropy : ℤ) + delta).toNat)
    ∧ (((st.player.entropy : ℤ) + delta).toNat - st.player.capacity ≤ 2 ^ 52 →
        (StateManager.update_entropy st delta now).player.entropy =
          (if st.player.capacity < ((st.player.entropy : ℤ) + delta).toNat then
            ((st.player.entropy : ℤ) + delta).toNat -
              (((st.player.entropy : ℤ) + delta).toNat - st.player.capacity) / 50
          else ((st.player.entropy : ℤ) + delta).toNat))
    ∧ (StateManager.update_entropy st delta now).player.last_update = now := by
  have hcf := update_entropy_closed_form st delta now hov
  refine ⟨hcf.1, ?_, hcf.2⟩
  intro hex
  rw [hcf.1]
  by_cases hcap : st.player.capacity < ((st.player.entropy : ℤ) + delta).toNat
  · rw [if_pos hcap, if_pos hcap, decayU64_eq_div50 _ hex]
  · rw [if_neg hcap, if_neg hcap]

/-- Claim C2 witness: the spec's own example — karma 100, capacity 10000,
entropy 9000, delta +2000: intermediate 11000, excess 1000 (inside the
`2^52` band where the decay is the exact fiftieth), decay 20, final
entropy 10980. -/
theorem claim_C2_witness :
    ((9000 : ℤ) + 2000 < 2 ^ 64)
    ∧ (((9000 : ℤ) + 2000).toNat - 10000 ≤ 2 ^ 52)
    ∧ (StateManager.update_entropy (mkState 100 9000 10000 none) 2000 7).player.entropy
        = 10980 := by
  refine ⟨by decide, by decide, ?_⟩
  have h := claim_C2_update_entropy (mkState 100 9000 10000 none) 2000 7 (by decide)
  exact (h.2.1 (by decide)).trans (by decide)

/-- Claim C3 counterexample: with entropy `1`, no cooldown, and allocations
`(2^63, 2^63, 1)`, the wrapping `u64` sum the code computes is `1`, so
`update_defense` succeeds even though the real sum `2^63 + 2^63 + 1`
exceeds the entropy — refuting "succeeds iff `l1+l2+l3 <= entropy`". -/
theorem claim_C3_counterexample :
    (StateManager.update_defense (mkState 1 1 100 none) (2 ^ 63) (2 ^ 63) 1 5).2 = none
    ∧ ¬(2 ^ 63 + 2 ^ 63 + 1 ≤ (mkState 1 1 100 none).player.entropy) := by
  constructor
  · decide
  · decide

/-- Claim C3 (amended as the counterexample and the source's logarithm
semantics force): `update_defense(l1,l2,l3)` succeeds iff the wrapping
`u64` sum `(l1+l2+l3) mod 2^64` is at most the entropy and no cooldown is
active — which is the claim's own condition whenever `l1+l2+l3 < 2^64`;
on success it overwrites the three allocations and sets
`cooldown_ends = now + inertia_seconds`, a non-negative delay computed by
the program as `((karma as f64).ln() * 600.0) as u64` — a value the
source pins exactly only at `karma ≤ 1` (zero seconds: Rust documents
`f64::ln`'s precision as non-deterministic, so `floor(ln(karma) * 600)`
at `karma ≥ 2` is platform-dependent); with no active cooldown and
insufficient entropy it fails with the insufficient-entropy error. -/
theorem claim_C3_update_defense (st : GameState) (l1 l2 l3 : ℕ) (now : ℤ) :
    ((StateManager.update_defense st l1 l2 l3 now).2 = none ↔
      (cooldownActive st now = false ∧ (l1 + l2 + l3) % U64MOD ≤ st.player.entropy))
    ∧ (l1 + l2 + l3 < U64MOD →
        ((StateManager.update_defense st l1 l2 l3 now).2 = none ↔
          (cooldownActive st now = false ∧ l1 + l2 + l3 ≤ st.player.entropy)))
    ∧ ((StateManager.update_defense st l1 l2 l3 now).2 = none →
        (StateManager.update_defense st l1 l2 l3 now).1 =
          defenseSuccessState st l1 l2 l3 now)
    ∧ ((StateManager.update_defense st l1 l2 l3 now).2 = none →
        ∃ s : ℕ,
          (StateManager.update_defense st l1 l2 l3 now).1.player.defense.cooldown_ends =
            some (now + (s : ℤ)))
    ∧ ((StateManager.update_defense st l1 l2 l3 now).2 = none → st.player.karma ≤ 1 →
        (StateManager.update_defense st l1 l2 l3 now).1.player.defense.cooldown_ends =
          some now)
    ∧ (cooldownActive st now = false →
        st.player.entropy < (l1 + l2 + l3) % U64MOD →
        (StateManager.update_defense st l1 l2 l3 now).2 = some "Insufficient Entropy") := by
  refine ⟨updateDefense_snd_eq_none_iff st l1 l2 l3 now, ?_,
    updateDefense_fst_of_success st l1 l2 l3 now, ?_, ?_, ?_⟩
  · intro hlt
    rw [updateDefense_snd_eq_none_iff, Nat.mod_eq_of_lt hlt]
  · intro hsucc
    refine ⟨st.player.calculate_inertia_seconds, ?_⟩
    rw [updateDefense_fst_of_success st l1 l2 l3 now hsucc]
    rfl
  · intro hsucc hk
    rw [updateDefense_fst_of_success st l1 l2 l3 now hsucc]
    show some (now + (st.player.calculate_inertia_seconds : ℤ)) = some now
    rcases Nat.le_one_iff_eq_zero_or_eq_one.mp hk with hzero | hone
    · rw [inertia_karma_zero st.player hzero]
      simp
    · rw [inertia_karma_one st.player hone]
      simp
  · intro hact hins
    rw [updateDefense_of_inactive st l1 l2 l3 now hact]
    simp only [updateDefenseBody]
    rw [if_pos hins]

/-- Claim C3 witness: a concrete successful reconfiguration — karma 1,
entropy 5, no cooldown, allocations (1,2,2) — succeeds, and the cooldown
stamped at the exactly-pinned point karma 1 ends at the call instant. -/
theorem claim_C3_witness :
    (StateManager.update_defense (mkState 1 5 100 none) 1 2 2 5).2 = none
    ∧ (StateManager.update_defense (mkState 1 5 100 none) 1 2 2 5).1.player.defense.cooldown_ends =
        some 5 := by
  have h := claim_C3_update_defense (mkState 1 5 100 none) 1 2 2 5
  have hsucc : (StateManager.update_defense (mkState 1 5 100 none) 1 2 2 5).2 = none :=
    h.1.mpr ⟨by decide, by decide⟩
  exact ⟨hsucc, h.2.2.2.2.1 hsucc (by decide)⟩

/-- Claim C4 counterexample: `update_karma(2^62)` stores
`capacity = (2^62 * 100) mod 2^64 = 0`, not `2^62 * 100` — the `u64`
product wraps, refuting "every snapshot shows `capacity == k * 100`". -/
theorem claim_C4_counterexample :
    (StateManager.update_karma (mkState 1 0 100 none) (2 ^ 62)).player.capacity = 0
    ∧ (2 ^ 62 : ℕ) * 100 ≠ 0 := by
  constructor
  · decide
  · decide

/-- Claim C4 (amended with the wrapping product the counterexample forces):
`update_karma(k)` sets, in one atomic state transition, `karma = k` and
`capacity = (k * 100) mod 2^64` — equal to `k * 100` whenever that product
fits in a `u64`; `Player::new` establishes the same relation; and every
snapshot taken after any of the other embedded store operations still
shows that pair unchanged (karma and capacity are never out of sync). -/
theorem claim_C4_capacity_karma (st : GameState) (k : ℕ) (id : String)
    (now delta : ℤ) (q : F64) (l1 l2 l3 : ℕ) :
    (StateManager.update_karma st k).player.karma = k
    ∧ (StateManager.update_karma st k).player.capacity = k * 100 % U64MOD
    ∧ (k * 100 < U64MOD → (StateManager.update_karma st k).player.capacity = k * 100)
    ∧ (Player.new id k now).capacity = k * 100 % U64MOD
    ∧ StateManager.get_snapshot (StateManager.update_karma st k) =
        StateManager.update_karma st k
    ∧ (StateManager.update_entropy (StateManager.update_karma st k) delta now).player.karma = k
    ∧ (StateManager.update_entropy (StateManager.update_karma st k) delta now).player.capacity =
        k * 100 % U64MOD
    ∧ (StateManager.update_defense (StateManager.update_karma st k) l1 l2 l3 now).1.player.karma = k
    ∧ (StateManager.update_defense (StateManager.update_karma st k) l1 l2 l3 now).1.player.capacity =
        k * 100 % U64MOD
    ∧ (StateManager.update_network_quality (StateManager.update_karma st k) q).player.karma = k
    ∧ (StateManager.update_network_quality (StateManager.update_karma st k) q).player.capacity =
        k * 100 % U64MOD := by
  have hd := updateDefense_karma_capacity (StateManager.update_karma st k) l1 l2 l3 now
  exact ⟨rfl, rfl, fun h => Nat.mod_eq_of_lt h, rfl, rfl, rfl, rfl, hd.1, hd.2, rfl, rfl⟩

/-- Claim C4 witness: at karma 5 the product fits, and the snapshot shows
`capacity = 5 * 100`. -/
theorem claim_C4_witness :
    (5 * 100 < U64MOD)
    ∧ (StateManager.update_karma (mkState 1 0 100 none) 5).player.capacity = 5 * 100 := by
  have h := claim_C4_capacity_karma (mkState 1 0 100 none) 5 "player-1" 0 0 (F64.val 1) 0 0 0
  exact ⟨by decide, h.2.2.1 (by decide)⟩

/-- Claim C5: a call to `update_defense` under an active cooldown always
returns the cooldown error carrying the remaining seconds and leaves the
whole state (the allocations included) unchanged; the same atomicity holds
for every error return, the insufficient-entropy error included. -/
theorem claim_C5_error_atomicity (st : GameState) (l1 l2 l3 : ℕ) (now : ℤ) :
    (∀ ce : ℤ, st.player.defense.cooldown_ends = some ce → now < ce →
      StateManager.update_defense st l1 l2 l3 now =
        (st, some ("Defense on cooldown for " ++ toString (ce - now) ++ " seconds")))
    ∧ ((StateManager.update_defense st l1 l2 l3 now).2.isSome = true →
        (StateManager.update_defense st l1 l2 l3 now).1 = st) := by
  refine ⟨fun ce hce hlt => updateDefense_of_active st l1 l2 l3 now ce hce hlt, fun h => ?_⟩
  apply updateDefense_fst_of_error
  intro hn
  rw [hn] at h
  cases h

/-- Claim C5 witness: with a cooldown ending at 10 and the call at 3, the
error names the 7 remaining seconds and the returned state is the input
state, untouched. -/
theorem claim_C5_witness :
    StateManager.update_defense (mkState 1 5 100 (some 10)) 1 2 2 3 =
      (mkState 1 5 100 (some 10), some "Defense on cooldown for 7 seconds") := by
  have h := (claim_C5_error_atomicity (mkState 1 5 100 (some 10)) 1 2 2 3).1 10
    (by decide) (by decide)
  exact h.trans (by decide)

/-- A zero entropy delta makes the sync tick a no-op: no request, baseline
and state untouched. -/
lemma syncTick_of_delta_zero (st : GameState) (last : ℤ) (d : String) (u : ℕ)
    (identity : DeviceIdentity) (ts : ℤ) (n : String) (server : Option SyncResponse)
    (h : i64Wrap (u64AsI64 st.player.entropy - last) = 0) :
    syncTick st last d u identity ts n server =
      { request := none, last_synced := last, state := st } := by
  simp only [syncTick]
  rw [if_pos h]

/-- A failed send leaves the baseline and the state untouched while the
request was built and attempted. -/
lemma syncTick_of_failure (st : GameState) (last : ℤ) (d : String) (u : ℕ)
    (identity : DeviceIdentity) (ts : ℤ) (n : String)
    (h : i64Wrap (u64AsI64 st.player.entropy - last) ≠ 0) :
    syncTick st last d u identity ts n none =
      { request := some (SignedSyncRequest.create_and_sign d
            (i64Wrap (u64AsI64 st.player.entropy - last)) (F64.val 1) u identity ts n)
        last_synced := last
        state := st } := by
  simp only [syncTick]
  rw [if_neg h]

/-- A successful send advances the baseline to the entropy just reported
and writes the server's karma back. -/
lemma syncTick_of_success (st : GameState) (last : ℤ) (d : String) (u : ℕ)
    (identity : DeviceIdentity) (ts : ℤ) (n : String) (resp : SyncResponse)
    (h : i64Wrap (u64AsI64 st.player.entropy - last) ≠ 0) :
    syncTick st last d u identity ts n (some resp) =
      { request := some (SignedSyncRequest.create_and_sign d
            (i64Wrap (u64AsI64 st.player.entropy - last)) (F64.val 1) u identity ts n)
        last_synced := u64AsI64 st.player.entropy
        state := StateManager.update_karma st (i64AsU64 resp.device_karma) } := by
  simp only [syncTick]
  rw [if_neg h]

/-- Claim C6: on a remote-sync tick, a zero entropy delta makes no network
call and leaves `last_synced_entropy` unchanged; a nonzero delta sends a
signed request, and only on a successful server call is
`last_synced_entropy` advanced to the entropy just reported and karma
written back from the response — on failure both are unchanged, so the
cumulative delta is re-attempted on the next fixed-interval tick. -/
theorem claim_C6_sync_tick (st : GameState) (last : ℤ) (d : String) (u : ℕ)
    (identity : DeviceIdentity) (ts : ℤ) (n : String) (server : Option SyncResponse) :
    (i64Wrap (u64AsI64 st.player.entropy - last) = 0 →
      (syncTick st last d u identity ts n server).request = none
      ∧ (syncTick st last d u identity ts n server).last_synced = last
      ∧ (syncTick st last d u identity ts n server).state = st)
    ∧ (i64Wrap (u64AsI64 st.player.entropy - last) ≠ 0 →
        (syncTick st last d u identity ts n server).request =
          some (SignedSyncRequest.create_and_sign d
            (i64Wrap (u64AsI64 st.player.entropy - last)) (F64.val 1) u identity ts n))
    ∧ (i64Wrap (u64AsI64 st.player.entropy - last) ≠ 0 → server = none →
        (syncTick st last d u identity ts n server).last_synced = last
        ∧ (syncTick st last d u identity ts n server).state = st)
    ∧ (∀ resp : SyncResponse, i64Wrap (u64AsI64 st.player.entropy - last) ≠ 0 →
        server = some resp →
        (syncTick st last d u identity ts n server).last_synced = u64AsI64 st.player.entropy
        ∧ (syncTick st last d u identity ts n server).state =
            StateManager.update_karma st (i64AsU64 resp.device_karma)
        ∧ (syncTick st last d u identity ts n server).state.player.karma =
            i64AsU64 resp.device_karma) := by
  by_cases h0 : i64Wrap (u64AsI64 st.player.entropy - last) = 0
  · refine ⟨fun _ => ?_, fun hne => absurd h0 hne, fun hne _ => absurd h0 hne,
      fun resp hne _ => absurd h0 hne⟩
    rw [syncTick_of_delta_zero st last d u identity ts n server h0]
    exact ⟨rfl, rfl, rfl⟩
  · refine ⟨fun h => absurd h h0, ?_, ?_, ?_⟩
    · intro _
      cases server with
      | none => rw [syncTick_of_failure st last d u identity ts n h0]
      | some resp => rw [syncTick_of_success st last d u identity ts n resp h0]
    · intro _ hs
      subst hs
      rw [syncTick_of_failure st last d u identity ts n h0]
      exact ⟨rfl, rfl⟩
    · intro resp _ hs
      subst hs
      rw [syncTick_of_success st last d u identity ts n resp h0]
      exact ⟨rfl, rfl, rfl⟩

/-- Claim C6 witness: with entropy 5000 already synced the tick is a no-op;
with entropy 6000 against baseline 5000 and a successful response carrying
karma 7, the baseline advances to 6000 and karma becomes 7. -/
theorem claim_C6_witness :
    (syncTick (mkState 1 5000 100 none) 5000 "dev" 60 idEx 99 "n" none).request = none
    ∧ (syncTick (mkState 1 6000 100 none) 5000 "dev" 60 idEx 99 "n"
        (some { success := true, device_entropy := 6000, device_karma := 7,
                managed := true })).last_synced = 6000
    ∧ (syncTick (mkState 1 6000 100 none) 5000 "dev" 60 idEx 99 "n"
        (some { success := true, device_entropy := 6000, device_karma := 7,
                managed := true })).state.player.karma = 7 := by
  have h1 := (claim_C6_sync_tick (mkState 1 5000 100 none) 5000 "dev" 60 idEx 99 "n"
    none).1 (by decide)
  have h2 := (claim_C6_sync_tick (mkState 1 6000 100 none) 5000 "dev" 60 idEx 99 "n"
    (some { success := true, device_entropy := 6000, device_karma := 7, managed := true })).2.2.2
    { success := true, device_entropy := 6000, device_karma := 7, managed := true }
    (by decide) rfl
  exact ⟨h1.1, h2.1.trans (by decide), h2.2.2.trans (by decide)⟩

/-- Claim C7 counterexample: over the spec's clock environment, the
implementation's construction at an unavailable clock (`none`) does not
fail with `ClockUnavailable` — it yields a request (`ok`), while the
spec-modelled construction fails; the source `create_and_sign` returns
`Self` with no error path at all. -/
theorem claim_C7_counterexample :
    createAndSignImpl none "dev-123" 500 (F64.val 1) 60 idEx "nonce-123" ≠
      Except.error SignError.clockUnavailable
    ∧ createAndSignSpec none "dev-123" 500 (F64.val 1) 60 idEx "nonce-123" =
      Except.error SignError.clockUnavailable := by
  constructor
  · simp [createAndSignImpl]
  · rfl

/-- Claim C7 (amended as the counterexample forces): `create_and_sign` is
an infallible total function — the clock read (`Utc::now().timestamp()`)
cannot fail, the construction returns a fully formed signed request for
every input and there is no `ClockUnavailable` (or any other) error
outcome before the network call; only the spec-modelled construction has
the failure leg. -/
theorem claim_C7_construction_infallible (clock : Option ℤ) (d : String) (delta : ℤ)
    (q : F64) (u : ℕ) (identity : DeviceIdentity) (n : String) :
    (createAndSignImpl clock d delta q u identity n).isOk = true
    ∧ createAndSignImpl clock d delta q u identity n =
        Except.ok (SignedSyncRequest.create_and_sign d delta q u identity (clock.getD 0) n)
    ∧ (∀ ts : ℤ, createAndSignSpec (some ts) d delta q u identity n =
        Except.ok (SignedSyncRequest.create_and_sign d delta q u identity ts n)) :=
  ⟨rfl, rfl, fun _ => rfl⟩

/-- Claim C8 counterexample: the canonical message the WebSocket client
signs at a concrete timestamp and nonce is `WS|/ws|AUTH|…|…` — its third
(body-position) component is the literal `AUTH`, not the empty string the
claim asserts, so it differs from the claimed `WS|/ws||…|…` shape. -/
theorem claim_C8_counterexample :
    wsAuthCanonical 1738576800 "nonce-123" ≠ wsAuthCanonicalClaimed 1738576800 "nonce-123"
    ∧ wsAuthCanonical 1738576800 "nonce-123" = "WS|/ws|AUTH|1738576800|nonce-123" := by
  constructor
  · decide
  · decide

/-- Claim C8 (amended as the counterexample forces): the canonical message
signed for the once-per-connection WebSocket authentication frame has the
five-component `|`-joined shape with method `WS`, the fixed literal path
`/ws`, and — in the body position — the fixed literal `AUTH` rather than
the empty string, followed by timestamp and nonce; the signature of the
auth frame is taken over exactly this message. -/
theorem claim_C8_ws_auth_canonical (c : WebSocketClient) (ts : ℤ) (n : String) :
    wsAuthCanonical ts n =
      "WS" ++ "|" ++ "/ws" ++ "|" ++ "AUTH" ++ "|" ++ toString ts ++ "|" ++ n
    ∧ WebSocketClient.create_auth_signature c ts n =
        (ts, n, c.signB64 (wsAuthCanonical ts n)) :=
  ⟨rfl, rfl⟩

/-- Claim C9: `calculate_network_quality` is total and always returns one
of the five constants `1.5, 1.2, 1.0, 0.5, 0.1` — on the empty slice the
mean is `0.0 / 0.0 = NaN`, every `<` comparison is false and the function
falls through to `0.1`; consequently the value fed to
`update_network_quality` is already inside the documented `[0.1, 1.5]`
range and the clamp stores it unchanged. -/
theorem claim_C9_network_quality_total (l : List F64) (st : GameState) :
    (calculate_network_quality l = F64.val (3 / 2)
      ∨ calculate_network_quality l = F64.val (6 / 5)
      ∨ calculate_network_quality l = F64.val 1
      ∨ calculate_network_quality l = F64.val (1 / 2)
      ∨ calculate_network_quality l = F64.val (1 / 10))
    ∧ calculate_network_quality [] = F64.val (1 / 10)
    ∧ F64.div (sumF64 []) (F64.val (([] : List F64).length : ℚ)) = F64.nan
    ∧ (StateManager.update_network_quality st
        (calculate_network_quality l)).player.network_quality =
        calculate_network_quality l := by
  have hA : calculate_network_quality l = F64.val (3 / 2)
      ∨ calculate_network_quality l = F64.val (6 / 5)
      ∨ calculate_network_quality l = F64.val 1
      ∨ calculate_network_quality l = F64.val (1 / 2)
      ∨ calculate_network_quality l = F64.val (1 / 10) := by
    simp only [calculate_network_quality]
    split_ifs <;> simp
  refine ⟨hA, by norm_num [calculate_network_quality, sumF64, F64.div, F64.lt],
    by norm_num [sumF64, F64.div], ?_⟩
  rcases hA with h | h | h | h | h <;>
    rw [h] <;>
    norm_num [StateManager.update_network_quality, F64.clamp, F64.lt]

/-- Claim C10: `calculate_inertia_seconds` returns `0` at karma `0`
(`ln(0.0) = -∞` and the saturating cast clamps negatives to `0`) as well
as at karma `1` (`ln(1.0) = 0`); the cast never wraps — every cast result
fits a `u64` — and a successful `update_defense` for a player with
`karma ≤ 1` sets a cooldown ending immediately (`cooldown_ends = now`). -/
theorem claim_C10_inertia_saturation (p : Player) (st : GameState) (l1 l2 l3 : ℕ)
    (now : ℤ) :
    (p.karma = 0 → p.calculate_inertia_seconds = 0)
    ∧ (p.karma = 1 → p.calculate_inertia_seconds = 0)
    ∧ p.calculate_inertia_seconds ≤ U64MOD - 1
    ∧ (∀ x : F64, x.toU64 ≤ U64MOD - 1)
    ∧ F64.ln (F64.val 0) = F64.ninf
    ∧ F64.toU64 F64.ninf = 0
    ∧ (st.player.karma ≤ 1 →
        (StateManager.update_defense st l1 l2 l3 now).2 = none →
        (StateManager.update_defense st l1 l2 l3 now).1.player.defense.cooldown_ends =
          some now) := by
  have hbound : ∀ x : F64, x.toU64 ≤ U64MOD - 1 := by
    intro x
    cases x with
    | nan => exact Nat.zero_le _
    | inf => exact le_rfl
    | ninf => exact Nat.zero_le _
    | val q =>
        show (if q ≤ 0 then 0 else min (U64MOD - 1) ⌊q⌋₊) ≤ U64MOD - 1
        split
        · exact Nat.zero_le _
        · exact min_le_left _ _
  refine ⟨inertia_karma_zero p, inertia_karma_one p, hbound _, hbound, ?_, rfl, ?_⟩
  · norm_num [F64.ln]
  · intro hk hsucc
    rw [updateDefense_fst_of_success st l1 l2 l3 now hsucc]
    show some (now + (st.player.calculate_inertia_seconds : ℤ)) = some now
    rcases Nat.le_one_iff_eq_zero_or_eq_one.mp hk with h | h
    · rw [inertia_karma_zero st.player h]
      simp
    · rw [inertia_karma_one st.player h]
      simp

/-- Claim C10 witness: the zero cooldown realized — a fresh player with
karma 0 has inertia 0, and a successful reconfiguration at karma 1 sets
`cooldown_ends` to the call instant itself. -/
theorem claim_C10_witness :
    (Player.new "dev" 0 17).calculate_inertia_seconds = 0
    ∧ (StateManager.update_defense (mkState 1 5 100 none) 2 2 1 5).1.player.defense.cooldown_ends =
        some 5 := by
  have h := claim_C10_inertia_saturation (Player.new "dev" 0 17) (mkState 1 5 100 none)
    2 2 1 5
  exact ⟨h.1 rfl, h.2.2.2.2.2.2 (by decide) (by decide)⟩

end Sacas
